import Mathlib

set_option maxHeartbeats 1000000

/-! Verification of the TFA (two-factor authentication) bindings of
`pve-rs` and `pmg-rs` (`src/pve-rs/src/bindings/tfa.rs`,
`src/pmg-rs/src/tfa.rs`): the configuration data model, `has_type`, the
`authentication_verify` result mapping, the lock-status report, the legacy
`tfa.cfg` v1 parser and the legacy projection, the JSON round trip of the
configuration, and the per-user persistent challenge store.

Machine bytes are modelled as `Nat` (with explicit `< 256` bounds where
they matter), Rust strings as `String` or `List Char`, byte buffers as
`List Nat`, hash maps as association lists, and fallible Rust functions as
`Except String` / `Option`.  External library calls (serde_json text
parsing, base64, UTF-8 decoding) are passed in as explicit function
parameters, so the definitions below contain exactly the logic of the
repository's own code. -/

/-- JSON values as handled by the bindings (the TFA code never uses
floating point numbers, so numbers are integers). -/
inductive Json where
  | null : Json
  | bool : Bool → Json
  | num : Int → Json
  | str : String → Json
  | arr : List Json → Json
  | obj : List (String × Json) → Json

/-- Association-list lookup, modelling `HashMap::get` / `serde_json::Map::get`. -/
def lookupA {α : Type} : List (String × α) → String → Option α
  | [], _ => none
  | (k', v) :: rest, k => if k = k' then some v else lookupA rest k

/-- Field access on a JSON object. -/
def jGet (j : Json) (k : String) : Option Json :=
  match j with
  | .obj fields => lookupA fields k
  | _ => none

/-- Remove a key from a JSON object map, returning the removed value and
the remaining fields, modelling `serde_json::Map::remove`. -/
def removeKey : List (String × Json) → String → Option Json × List (String × Json)
  | [], _ => (none, [])
  | (k', v) :: rest, k =>
    if k = k' then (some v, rest)
    else
      let r := removeKey rest k
      (r.1, (k', v) :: r.2)

/-! ## The TFA data model

`proxmox_tfa::api::{TfaConfig, TfaUserData, TfaEntry, TfaInfo}` and
`proxmox_tfa::totp::Totp` as used by the bindings. -/

/-- The common entry envelope `proxmox_tfa::api::TfaInfo`. -/
structure TfaInfo where
  id : String
  description : String
  created : Int
  enable : Bool
deriving DecidableEq

/-- `proxmox_tfa::api::TfaEntry<T>`: the envelope plus the type-specific data. -/
structure TfaEntry (T : Type) where
  info : TfaInfo
  entry : T
deriving DecidableEq

/-- A TOTP secret with its configuration (`proxmox_tfa::totp::Totp`):
secret bytes, period (seconds), digit count, account name. -/
structure Totp where
  secret : List Nat
  period : Nat
  digits : Nat
  accountName : String
deriving DecidableEq

/-- A U2F registration (`proxmox_tfa::u2f::Registration` flattened with its
`RegisteredKey`): key handle bytes, version, public key and certificate bytes. -/
structure U2fRegistration where
  keyHandle : List Nat
  version : String
  publicKey : List Nat
  certificate : List Nat
deriving DecidableEq

/-- One hashed recovery code with its used flag.
Modelled from the spec: the recovery entry internals live in the external
`proxmox-tfa` crate; §3 describes an ordered sequence of one-way-hashed
codes, each with a `used` flag. -/
structure RecoveryCode where
  hashed : String
  used : Bool
deriving DecidableEq

/-- The per-user recovery entry (at most one per user).
Modelled from the spec: creation time plus the ordered code list. -/
structure RecoveryEntry where
  created : Int
  codes : List RecoveryCode
deriving DecidableEq

/-- `count_available()`: the number of not-yet-used recovery codes. -/
def RecoveryEntry.count_available (r : RecoveryEntry) : Nat :=
  r.codes.countP (fun c => !c.used)

/-- `proxmox_tfa::api::TfaUserData`: all entries of one user plus the
lockout state.  WebAuthn credentials and Yubico key ids are opaque strings
to this code. -/
structure TfaUserData where
  totp : List (TfaEntry Totp)
  u2f : List (TfaEntry U2fRegistration)
  webauthn : List (TfaEntry String)
  yubico : List (TfaEntry String)
  recovery : Option RecoveryEntry
  totp_locked : Bool
  tfa_locked_until : Option Int
deriving DecidableEq

/-- `TfaUserData::is_empty`: no entries of any kind and no recovery entry. -/
def TfaUserData.is_empty (d : TfaUserData) : Bool :=
  d.totp.isEmpty && d.u2f.isEmpty && d.webauthn.isEmpty && d.yubico.isEmpty
    && d.recovery.isNone

/-- The global U2F site configuration (`U2fConfig`). -/
structure U2fConfig where
  appid : String
deriving DecidableEq

/-- The global WebAuthn site configuration (`WebauthnConfig`): relying
party, optional origin, id. -/
structure WebauthnConfig where
  rp : String
  origin : Option String
  id : String
deriving DecidableEq

/-- `proxmox_tfa::api::TfaConfig`: the user map plus the optional global
U2F/WebAuthn site configurations. -/
structure TfaConfig where
  users : List (String × TfaUserData)
  u2f : Option U2fConfig
  webauthn : Option WebauthnConfig
deriving DecidableEq

/-! ## `has_type`

`pve_rs_tfa::has_type` (pve-rs tfa.rs lines 208-228) and the identical
PMG variant (pmg-rs tfa.rs lines 129-145). -/

/-- `has_type(userid, typename)` exactly as written in the source: each
non-recovery kind tests whether the corresponding entry vector is
non-empty (with no filtering on the `enable` flag); `recovery` tests
`count_available() > 0`; an unknown type name is an error; an unknown user
yields `false`. -/
def has_type (users : List (String × TfaUserData)) (userid typename : String) :
    Except String Bool :=
  match lookupA users userid with
  | some user =>
    if typename = "totp" ∨ typename = "oath" then .ok (!user.totp.isEmpty)
    else if typename = "u2f" then .ok (!user.u2f.isEmpty)
    else if typename = "webauthn" then .ok (!user.webauthn.isEmpty)
    else if typename = "yubico" then .ok (!user.yubico.isEmpty)
    else if typename = "recovery" then
      .ok (match user.recovery with
           | some r => decide (r.count_available > 0)
           | none => false)
    else .error ("unrecognized TFA type " ++ typename)
  | none => .ok false

/-! ## `authentication_verify`

`proxmox_tfa::api::TfaResult` and the legacy convenience wrapper
(pve-rs tfa.rs lines 308-332, pmg-rs tfa.rs lines 233-257). -/

/-- The verification outcome `proxmox_tfa::api::TfaResult`. -/
inductive TfaResult where
  | success (needs_saving : Bool)
  | locked
  | failure (needs_saving totp_limit_reached tfa_limit_reached : Bool)
deriving DecidableEq

/-- The result mapping of `authentication_verify`: `Success` returns
`needs_saving`; every other outcome becomes the single error
`TFA authentication failed`. -/
def authentication_verify_result : TfaResult → Except String Bool
  | .success needs_saving => .ok needs_saving
  | _ => .error "TFA authentication failed"

/-- The result mapping of `authentication_verify2`, returning the full
result hash. -/
structure TfaReturnValue where
  result : Bool
  needs_saving : Bool
  totp_limit_reached : Bool
  tfa_limit_reached : Bool
deriving DecidableEq

/-- `authentication_verify2`'s translation of `TfaResult` into the return hash. -/
def authentication_verify2_result : TfaResult → TfaReturnValue
  | .success ns => ⟨true, ns, false, false⟩
  | .locked => ⟨false, false, false, false⟩
  | .failure ns totp tfa => ⟨false, ns, totp, tfa⟩

/-! ## Lock status reporting

`TfaLockStatus` and `tfa_lock_status` (pve-rs tfa.rs lines 561-612,
pmg-rs tfa.rs lines 451-499). -/

/-- The lockout report record. -/
structure TfaLockStatus where
  totp_locked : Bool
  tfa_locked_until : Option Int
deriving DecidableEq

/-- `From<&TfaUserData> for TfaLockStatus`: both fields are copied
unconditionally. -/
def TfaLockStatus.ofUser (d : TfaUserData) : TfaLockStatus :=
  ⟨d.totp_locked, d.tfa_locked_until⟩

/-- Serialization of `TfaLockStatus` as derived in the source:
`totp-locked` is skipped when false (`skip_serializing_if = bool_is_false`)
and `tfa-locked-until` is skipped exactly when it is `None`
(`skip_serializing_if = Option::is_none`); the `deserialize_with`
attribute naming `filter_expired_timestamp` never applies since the struct
only derives `Serialize`. -/
def serializeLockStatus (s : TfaLockStatus) : Json :=
  .obj ((if s.totp_locked then [("totp-locked", Json.bool true)] else [])
    ++ (match s.tfa_locked_until with
        | some t => [("tfa-locked-until", Json.num t)]
        | none => []))

/-- `tfa_lock_status` for a single user id: `None` for an unknown user,
otherwise the serialized `TfaLockStatus` of that user. -/
def tfa_lock_status (users : List (String × TfaUserData)) (userid : String) :
    Option Json :=
  (lookupA users userid).map (fun d => serializeLockStatus (TfaLockStatus.ofUser d))

/-! ## Legacy `tfa.cfg` v1 format

Helpers and the decoders from pve-rs tfa.rs lines 653-883, plus the legacy
projection `generate_legacy_config` (lines 893-970). -/

/-- `u8::is_ascii_whitespace`: space, tab, newline, form feed, carriage return. -/
def isAsciiWs (c : Char) : Bool :=
  c = ' ' || c = '\t' || c = '\n' || c.toNat = 12 || c = '\r'

/-- `trim_ascii_whitespace` on characters: drop ASCII whitespace from both ends. -/
def trimWs (l : List Char) : List Char :=
  ((l.dropWhile isAsciiWs).reverse.dropWhile isAsciiWs).reverse

/-- The separators of the legacy multi-key strings: `,`, `;`, space. -/
def isKeySep (c : Char) : Bool :=
  c = ',' || c = ';' || c = ' '

/-- Rust `str::split` with a character-class pattern: split at every
separator, keeping empty fragments (`"a,"` splits into `a` and the empty
fragment, the empty string yields one empty fragment). -/
def splitSeps : List Char → List (List Char)
  | [] => [[]]
  | c :: rest =>
    if isKeySep c then [] :: splitSeps rest
    else
      match splitSeps rest with
      | [] => [[c]]
      | g :: gs => (c :: g) :: gs

/-- Rust `str::strip_prefix`: the remainder after the given pattern, if it
is one. -/
def stripPref : List Char → List Char → Option (List Char)
  | [], l => some l
  | _ :: _, [] => none
  | p :: ps, c :: cs => if c = p then stripPref ps cs else none

/-- Lowercase hex digit of a nibble, as produced by `hex::encode`. -/
def hexDigit (n : Nat) : Char :=
  if n < 10 then Char.ofNat (48 + n) else Char.ofNat (87 + n)

/-- `hex::encode`: two lowercase hex digits per byte. -/
def hexEncode : List Nat → List Char
  | [] => []
  | b :: rest => hexDigit (b / 16) :: hexDigit (b % 16) :: hexEncode rest

/-- Value of a hex digit, upper or lower case (`hex::decode` accepts both). -/
def hexVal (c : Char) : Option Nat :=
  if 48 ≤ c.toNat ∧ c.toNat ≤ 57 then some (c.toNat - 48)
  else if 97 ≤ c.toNat ∧ c.toNat ≤ 102 then some (c.toNat - 87)
  else if 65 ≤ c.toNat ∧ c.toNat ≤ 70 then some (c.toNat - 55)
  else none

/-- `hex::decode`: pairs of hex digits; odd length or a non-hex character
fails. -/
def hexDecode : List Char → Option (List Nat)
  | [] => some []
  | [_] => none
  | c1 :: c2 :: rest =>
    match hexVal c1, hexVal c2, hexDecode rest with
    | some h, some l, some bs => some ((16 * h + l) :: bs)
    | _, _, _ => none

/-- Value of an RFC 4648 base32 alphabet character. -/
def b32Val (c : Char) : Option Nat :=
  if 65 ≤ c.toNat ∧ c.toNat ≤ 90 then some (c.toNat - 65)
  else if 50 ≤ c.toNat ∧ c.toNat ≤ 55 then some (c.toNat - 24)
  else none

/-- The `k` low bits of `n`, most significant first. -/
def bitsOf (n k : Nat) : List Bool :=
  (List.range k).map (fun i => n.testBit (k - 1 - i))

/-- Numeric value of a bit list, most significant first. -/
def ofBits (bs : List Bool) : Nat :=
  bs.foldl (fun a b => 2 * a + (if b then 1 else 0)) 0

/-- Full bytes of a bit stream; a trailing group of fewer than 8 bits is
discarded. -/
def bytesOfBits : List Bool → List Nat
  | b0 :: b1 :: b2 :: b3 :: b4 :: b5 :: b6 :: b7 :: rest =>
    ofBits [b0, b1, b2, b3, b4, b5, b6, b7] :: bytesOfBits rest
  | _ => []

/-- `base32::decode` with the padded RFC 4648 alphabet: strip trailing `=`
padding, map every character to 5 bits, fail on a character outside the
alphabet, and assemble the full bytes. -/
def base32Decode (cs : List Char) : Option (List Nat) :=
  match ((cs.reverse.dropWhile (fun c => c = '=')).reverse.mapM b32Val) with
  | some vals => some (bytesOfBits (vals.map (fun v => bitsOf v 5)).flatten)
  | none => none

/-- One key of a legacy `oath` entry, decoded exactly as in the source
(see `PVE::OTP::oath_verify_otp`): `v2-0x` prefix means hex, then `v2-`
prefix means base32, then an unprefixed 16-character key is base32, an
unprefixed 40-character key is hex, and anything else is an error. -/
def decodeOldOathKey (key : List Char) : Except String (List Nat) :=
  match stripPref "v2-0x".data key with
  | some rest =>
    match hexDecode rest with
    | some bs => .ok bs
    | none => .error "bad v2 hex key in oath entry"
  | none =>
    match stripPref "v2-".data key with
    | some rest =>
      match base32Decode rest with
      | some bs => .ok bs
      | none => .error "bad v2 base32 key in oath entry"
    | none =>
      if key.length = 16 then
        match base32Decode key with
        | some bs => .ok bs
        | none => .error "bad v1 base32 key in oath entry"
      else if key.length = 40 then
        match hexDecode key with
        | some bs => .ok bs
        | none => .error "bad v1 hex key in oath entry"
      else .error "unrecognized key format, must be hex or base32 encoded"

/-- `usize_from_perl`: numbers may arrive as JSON numbers or as decimal
strings (perl stringifies numbers). -/
def usize_from_perl (v : Json) : Option Nat :=
  match v with
  | .num (Int.ofNat n) => some n
  | .num _ => none
  | .str s => if s.data ≠ [] ∧ s.data.all (fun c => c.isDigit) then
      some (s.data.foldl (fun a c => 10 * a + (c.toNat - 48)) 0)
    else none
  | _ => none

/-- `take_json_string`: remove the key from the object; missing or
non-string values are errors. -/
def take_json_string (data : List (String × Json)) (what in_what : String) :
    Except String (String × List (String × Json)) :=
  match removeKey data what with
  | (none, _) => .error ("missing '" ++ what ++ "' value in " ++ in_what ++ " entry")
  | (some (.str s), rest) => .ok (s, rest)
  | (some _, _) => .error ("bad '" ++ what ++ "' value")

/-- The external library functions the legacy parser calls: base64 and
base64url decoding (`proxmox_base64`), JSON text parsing
(`serde_json::from_slice` into a `Value`), and UTF-8 validation
(`std::str::from_utf8`).  They are parameters of the embedding: the code
under verification only composes them. -/
structure ExternLib where
  b64DecodeStr : String → Option (List Nat)
  b64uDecodeStr : String → Option (List Nat)
  b64DecodeBytes : List Nat → Option (List Nat)
  jsonOfBytes : List Nat → Option Json
  utf8Decode : List Nat → Option String

/-- The key loop of `decode_old_oath_entry`: trim each fragment, skip
empty ones, decode the rest, and build one `Totp` per key from the shared
period/digits configuration and account name. -/
def decode_old_oath_keys (user : String) (period digits : Nat) :
    List (List Char) → Except String (List Totp)
  | [] => .ok []
  | k :: rest =>
    let k' := trimWs k
    if k'.isEmpty then decode_old_oath_keys user period digits rest
    else
      match decodeOldOathKey k' with
      | .error e => .error e
      | .ok secret =>
        match decode_old_oath_keys user period digits rest with
        | .error e => .error e
        | .ok out => .ok (⟨secret, period, digits, user⟩ :: out)

/-- `decode_old_oath_entry` (pve-rs tfa.rs lines 757-822): take the
`config` object (step defaulting to 30, digits to 6, digits bounded by
`u8`), reject leftover config keys, then decode the separated key list.
The 30/6 defaults are those of the external TOTP builder. -/
def decode_old_oath_entry (data : Json) (user : String) : Except String (List Totp) :=
  match data with
  | .obj obj =>
    match removeKey obj "config" with
    | (some (.obj config), obj1) =>
      let stepPair := removeKey config "step"
      let stepR : Except String Nat :=
        match stepPair.1 with
        | none => .ok 30
        | some v =>
          match usize_from_perl v with
          | some n => .ok n
          | none => .error "bad 'step' value in oath config"
      match stepR with
      | .error e => .error e
      | .ok period =>
        let digitsPair := removeKey stepPair.2 "digits"
        let digitsR : Except String Nat :=
          match digitsPair.1 with
          | none => .ok 6
          | some v =>
            match usize_from_perl v with
            | some n => if n < 256 then .ok n else .error "bad 'digits' value in oath config"
            | none => .error "bad 'digits' value in oath config"
        match digitsR with
        | .error e => .error e
        | .ok digits =>
          if !digitsPair.2.isEmpty then .error "unhandled totp config keys in oath entry"
          else
            match take_json_string obj1 "keys" "oath" with
            | .error e => .error e
            | .ok (keys, _) => decode_old_oath_keys user period digits (splitSeps keys.data)
    | (some _, _) => .error "bad 'config' entry in oath tfa entry"
    | (none, _) => .error "missing 'config' entry in oath tfa entry"
  | _ => .error "bad json type for oath registration"

/-- The key loop of `decode_old_yubico_entry`: trim, skip empty, keep the
rest verbatim. -/
def decode_old_yubico_keys : List (List Char) → List String
  | [] => []
  | k :: rest =>
    let k' := trimWs k
    if k'.isEmpty then decode_old_yubico_keys rest
    else String.mk k' :: decode_old_yubico_keys rest

/-- `decode_old_yubico_entry` (pve-rs tfa.rs lines 824-844). -/
def decode_old_yubico_entry (data : Json) : Except String (List String) :=
  match data with
  | .obj obj =>
    match take_json_string obj "keys" "yubico" with
    | .error e => .error e
    | .ok (keys, _) => .ok (decode_old_yubico_keys (splitSeps keys.data))
  | _ => .error "bad json type for yubico registration"

/-- `decode_old_u2f_entry` (pve-rs tfa.rs lines 723-755): an in-progress
`challenge` key discards the entry, otherwise key handle and public key
are base64url-no-pad / base64 decoded and leftover keys are rejected. -/
def decode_old_u2f_entry (ext : ExternLib) (data : Json) :
    Except String (Option U2fRegistration) :=
  match data with
  | .obj obj =>
    if (lookupA obj "challenge").isSome then .ok none
    else
      match take_json_string obj "keyHandle" "u2f" with
      | .error e => .error e
      | .ok (kh, obj1) =>
        match ext.b64uDecodeStr kh with
        | none => .error "handle in u2f entry"
        | some keyHandle =>
          match take_json_string obj1 "publicKey" "u2f" with
          | .error e => .error e
          | .ok (pk, obj2) =>
            match ext.b64DecodeStr pk with
            | none => .error "bad public key in u2f entry"
            | some publicKey =>
              if !obj2.isEmpty then .error "invalid extra data in u2f entry"
              else .ok (some ⟨keyHandle, "U2F_V2", publicKey, []⟩)
  | _ => .error "bad json type for u2f registration"

/-- The envelope attached to every migrated v1 entry. -/
def v1Info : TfaInfo := ⟨"v1-entry", "<old version 1 entry>", 0, true⟩

/-- `TfaUserData::default()`. -/
def emptyUserData : TfaUserData := ⟨[], [], [], [], none, false, none⟩

/-- ASCII bytes of a string, to compare the raw `TYPE` field of a legacy
line against the literal byte strings of the source. -/
def strBytes (s : String) : List Nat := s.data.map (fun c => c.toNat)

/-- `decode_old_entry` (pve-rs tfa.rs lines 682-721): parse the
base64-decoded payload as JSON, then dispatch on the raw type bytes; any
unknown type is a hard parse error. -/
def decode_old_entry (ext : ExternLib) (ty : List Nat) (data : List Nat) (user : String) :
    Except String TfaUserData :=
  match ext.jsonOfBytes data with
  | none => .error "failed to parse json data in tfa entry"
  | some value =>
    if ty = strBytes "u2f" then
      match decode_old_u2f_entry ext value with
      | .error e => .error e
      | .ok none => .ok emptyUserData
      | .ok (some reg) => .ok { emptyUserData with u2f := [⟨v1Info, reg⟩] }
    else if ty = strBytes "oath" then
      match decode_old_oath_entry value user with
      | .error e => .error e
      | .ok totps => .ok { emptyUserData with totp := totps.map (fun t => ⟨v1Info, t⟩) }
    else if ty = strBytes "yubico" then
      match decode_old_yubico_entry value with
      | .error e => .error e
      | .ok keys => .ok { emptyUserData with yubico := keys.map (fun k => ⟨v1Info, k⟩) }
    else .error "unknown tfa.cfg entry type"

/-- Byte-level ASCII whitespace test (`u8::is_ascii_whitespace`). -/
def isAsciiWsB (b : Nat) : Bool :=
  b = 32 || b = 9 || b = 10 || b = 12 || b = 13

/-- `trim_ascii_whitespace` on a byte slice. -/
def trimWsB (l : List Nat) : List Nat :=
  ((l.dropWhile isAsciiWsB).reverse.dropWhile isAsciiWsB).reverse

/-- Split a byte buffer at every occurrence of a separator byte, keeping
empty fragments (`slice::split`). -/
def splitByte (sep : Nat) : List Nat → List (List Nat)
  | [] => [[]]
  | b :: rest =>
    if b = sep then [] :: splitByte sep rest
    else
      match splitByte sep rest with
      | [] => [[b]]
      | g :: gs => (b :: g) :: gs

/-- Split a byte buffer at the first occurrence of a separator byte. -/
def splitOnce (sep : Nat) (l : List Nat) : Option (List Nat × List Nat) :=
  match l.dropWhile (fun b => b ≠ sep) with
  | [] => none
  | _ :: rest => some (l.takeWhile (fun b => b ≠ sep), rest)

/-- `splitn(3, b':')` followed by the triple `zip` of the source: exactly
the first two colons split the line; fewer than two colons fail. -/
def splitN3 (l : List Nat) : Option (List Nat × List Nat × List Nat) :=
  match splitOnce 58 l with
  | none => none
  | some (a, r) =>
    match splitOnce 58 r with
    | none => none
    | some (b, c) => some (a, b, c)

/-- `HashMap::insert`: replace an existing binding, else append. -/
def insertUser (users : List (String × TfaUserData)) (user : String) (d : TfaUserData) :
    List (String × TfaUserData) :=
  match users with
  | [] => [(user, d)]
  | (k, v) :: rest =>
    if k = user then (user, d) :: rest else (k, v) :: insertUser rest user d

/-- One line of `parse_old_config`: trim, skip blank and `#` lines, split
into `USER:TYPE:DATA`, check UTF-8, base64-decode, decode the entry and
insert it for the user. -/
def parse_old_line (ext : ExternLib) (config : TfaConfig) (line : List Nat) :
    Except String TfaConfig :=
  let line' := trimWsB line
  if line'.isEmpty || line'.headD 0 = 35 then .ok config
  else
    match splitN3 line' with
    | none => .error "bad line in tfa config"
    | some (userB, ty, dataB) =>
      match ext.utf8Decode userB with
      | none => .error "bad non-utf8 username in tfa config"
      | some user =>
        match ext.b64DecodeBytes dataB with
        | none => .error "failed to decode data in tfa config entry"
        | some data =>
          match decode_old_entry ext ty data user with
          | .error e => .error e
          | .ok entry => .ok { config with users := insertUser config.users user entry }

/-- The line fold of `parse_old_config`. -/
def parse_old_lines (ext : ExternLib) : TfaConfig → List (List Nat) → Except String TfaConfig
  | config, [] => .ok config
  | config, line :: rest =>
    match parse_old_line ext config line with
    | .error e => .error e
    | .ok c => parse_old_lines ext c rest

/-- `parse_old_config` (pve-rs tfa.rs lines 653-680): fold all
newline-separated lines over the default configuration. -/
def parse_old_config (ext : ExternLib) (data : List Nat) : Except String TfaConfig :=
  parse_old_lines ext ⟨[], none, none⟩ (splitByte 10 data)

/-! ## The legacy projection `generate_legacy_config`

pve-rs tfa.rs lines 893-970: at most one legacy entry per user — the first
U2F entry, else all TOTP entries merged into one multi-key `oath` entry,
else all Yubico keys space-joined, else `incompatible` if the user has any
remaining (unsupported) data. -/

/-- The per-user legacy shape produced by `generate_legacy_config`. -/
inductive LegacyEntry where
  | u2f (publicKey : List Char) (keyHandle : List Char)
  | oath (digits : Int) (step : Int) (keys : List Char)
  | yubico (keys : String)
  | incompatible

/-- The multi-key `oath` string: `v2-0x` + lowercase hex of the first
secret, then one space-separated `v2-0x` hex key per further TOTP entry. -/
def oathKeysOf (totps : List (TfaEntry Totp)) : List Char :=
  match totps with
  | [] => []
  | t :: rest =>
    "v2-0x".data ++ hexEncode t.entry.secret
      ++ (rest.map (fun t2 => " v2-0x".data ++ hexEncode t2.entry.secret)).flatten

/-- `generate_legacy_config` restricted to one user.  The base64 and
base64url-no-pad encoders for the U2F branch are external parameters. -/
def generate_legacy_user (b64e b64ue : List Nat → List Char) (d : TfaUserData) :
    Option LegacyEntry :=
  match d.u2f with
  | e :: _ => some (.u2f (b64e e.entry.publicKey) (b64ue e.entry.keyHandle))
  | [] =>
    match d.totp with
    | t :: _ =>
      some (.oath (Int.ofNat t.entry.digits) (Int.ofNat t.entry.period) (oathKeysOf d.totp))
    | [] =>
      match d.yubico with
      | _ :: _ => some (.yubico (String.intercalate " " (d.yubico.map (fun e => e.entry))))
      | [] => if d.is_empty then none else some .incompatible

/-- The JSON `DATA` object a legacy consumer re-parses for an `oath`
projection: the `config` object with `digits` and `step`, plus the key
string. -/
def legacyOathJson (digits step : Int) (keys : List Char) : Json :=
  .obj [("config", .obj [("digits", .num digits), ("step", .num step)]),
        ("keys", .str (String.mk keys))]

/-- Project a user record to the legacy shape and, when the projection is
an `oath` entry, parse that entry back with the v1 oath decoder. -/
def projectThenParseOath (b64e b64ue : List Nat → List Char) (d : TfaUserData)
    (user : String) : Option (Except String (List Totp)) :=
  match generate_legacy_user b64e b64ue d with
  | some (.oath digits step keys) =>
    some (decode_old_oath_entry (legacyOathJson digits step keys) user)
  | _ => none

/-! ## Configuration serialization

Modelled from the spec: the serde representation of `TfaConfig` lives in
the external `proxmox-tfa` crate; §6 fixes the file as a JSON object
`users` / optional `u2f` / optional `webauthn`, with the `UserRecord`
fields of §3 in stable kebab-case keys.  The encoders below realise that
format and the decoders read it back; `write`/`new` of the bindings are
then the compositions found in the source. -/

/-- Bytes as a JSON array of numbers. -/
def encBytes (bs : List Nat) : Json := .arr (bs.map (fun b => .num (Int.ofNat b)))

/-- Decode a JSON string. -/
def decStr : Json → Option String
  | .str s => some s
  | _ => none

/-- Decode a JSON boolean. -/
def decBool : Json → Option Bool
  | .bool b => some b
  | _ => none

/-- Decode a JSON integer. -/
def decInt : Json → Option Int
  | .num n => some n
  | _ => none

/-- Decode a non-negative JSON integer. -/
def decNatJ : Json → Option Nat
  | .num (Int.ofNat n) => some n
  | _ => none

/-- Sequentially decode a list, failing on the first failure (the
traversal serde performs on sequences). -/
def optMapM {α β : Type} (g : α → Option β) : List α → Option (List β)
  | [] => some []
  | a :: as =>
    match g a with
    | none => none
    | some b =>
      match optMapM g as with
      | none => none
      | some bs => some (b :: bs)

/-- Decode a byte array. -/
def decBytes : Json → Option (List Nat)
  | .arr js => optMapM decNatJ js
  | _ => none

/-- Decode each element of a JSON array. -/
def decList {α : Type} (dec : Json → Option α) : Json → Option (List α)
  | .arr js => optMapM dec js
  | _ => none

/-- A key that is present exactly when the optional value is set. -/
def optField {α : Type} (k : String) (enc : α → Json) : Option α → List (String × Json)
  | some a => [(k, enc a)]
  | none => []

/-- Read a key that may be absent: absence decodes to `none`. -/
def jGetOpt {α : Type} (j : Json) (k : String) (dec : Json → Option α) :
    Option (Option α) :=
  match jGet j k with
  | none => some none
  | some v => (dec v).map some

/-- TOTP entry data. -/
def encTotp (t : Totp) : Json :=
  .obj [("secret", encBytes t.secret), ("period", .num (Int.ofNat t.period)),
        ("digits", .num (Int.ofNat t.digits)), ("account-name", .str t.accountName)]

/-- Decode TOTP entry data. -/
def decTotp (j : Json) : Option Totp :=
  (jGet j "secret").bind fun v1 => (decBytes v1).bind fun secret =>
  (jGet j "period").bind fun v2 => (decNatJ v2).bind fun period =>
  (jGet j "digits").bind fun v3 => (decNatJ v3).bind fun digits =>
  (jGet j "account-name").bind fun v4 => (decStr v4).map fun name =>
  ⟨secret, period, digits, name⟩

/-- U2F registration data. -/
def encU2fReg (r : U2fRegistration) : Json :=
  .obj [("key-handle", encBytes r.keyHandle), ("version", .str r.version),
        ("public-key", encBytes r.publicKey), ("certificate", encBytes r.certificate)]

/-- Decode U2F registration data. -/
def decU2fReg (j : Json) : Option U2fRegistration :=
  (jGet j "key-handle").bind fun v1 => (decBytes v1).bind fun kh =>
  (jGet j "version").bind fun v2 => (decStr v2).bind fun version =>
  (jGet j "public-key").bind fun v3 => (decBytes v3).bind fun pk =>
  (jGet j "certificate").bind fun v4 => (decBytes v4).map fun cert =>
  ⟨kh, version, pk, cert⟩

/-- The entry envelope with its data. -/
def encEntry {T : Type} (encT : T → Json) (e : TfaEntry T) : Json :=
  .obj [("id", .str e.info.id), ("description", .str e.info.description),
        ("created", .num e.info.created), ("enable", .bool e.info.enable),
        ("entry", encT e.entry)]

/-- Decode the entry envelope with its data. -/
def decEntry {T : Type} (decT : Json → Option T) (j : Json) : Option (TfaEntry T) :=
  (jGet j "id").bind fun v1 => (decStr v1).bind fun id =>
  (jGet j "description").bind fun v2 => (decStr v2).bind fun descr =>
  (jGet j "created").bind fun v3 => (decInt v3).bind fun created =>
  (jGet j "enable").bind fun v4 => (decBool v4).bind fun enable =>
  (jGet j "entry").bind fun v5 => (decT v5).map fun entry =>
  ⟨⟨id, descr, created, enable⟩, entry⟩

/-- One recovery code. -/
def encRecoveryCode (c : RecoveryCode) : Json :=
  .obj [("hashed", .str c.hashed), ("used", .bool c.used)]

/-- Decode one recovery code. -/
def decRecoveryCode (j : Json) : Option RecoveryCode :=
  (jGet j "hashed").bind fun v1 => (decStr v1).bind fun hashed =>
  (jGet j "used").bind fun v2 => (decBool v2).map fun used =>
  ⟨hashed, used⟩

/-- The recovery entry. -/
def encRecovery (r : RecoveryEntry) : Json :=
  .obj [("created", .num r.created), ("codes", .arr (r.codes.map encRecoveryCode))]

/-- Decode the recovery entry. -/
def decRecovery (j : Json) : Option RecoveryEntry :=
  (jGet j "created").bind fun v1 => (decInt v1).bind fun created =>
  (jGet j "codes").bind fun v2 => (decList decRecoveryCode v2).map fun codes =>
  ⟨created, codes⟩

/-- One user's record. -/
def encUserData (d : TfaUserData) : Json :=
  .obj ([("totp", .arr (d.totp.map (encEntry encTotp))),
         ("u2f", .arr (d.u2f.map (encEntry encU2fReg))),
         ("webauthn", .arr (d.webauthn.map (encEntry Json.str))),
         ("yubico", .arr (d.yubico.map (encEntry Json.str)))]
    ++ optField "recovery" encRecovery d.recovery
    ++ [("totp-locked", .bool d.totp_locked)]
    ++ optField "tfa-locked-until" Json.num d.tfa_locked_until)

/-- Decode one user's record. -/
def decUserData (j : Json) : Option TfaUserData :=
  (jGet j "totp").bind fun v1 => (decList (decEntry decTotp) v1).bind fun totp =>
  (jGet j "u2f").bind fun v2 => (decList (decEntry decU2fReg) v2).bind fun u2f =>
  (jGet j "webauthn").bind fun v3 => (decList (decEntry decStr) v3).bind fun webauthn =>
  (jGet j "yubico").bind fun v4 => (decList (decEntry decStr) v4).bind fun yubico =>
  (jGetOpt j "recovery" decRecovery).bind fun recovery =>
  (jGet j "totp-locked").bind fun v5 => (decBool v5).bind fun totp_locked =>
  (jGetOpt j "tfa-locked-until" decInt).map fun tfa_locked_until =>
  ⟨totp, u2f, webauthn, yubico, recovery, totp_locked, tfa_locked_until⟩

/-- The global U2F site configuration. -/
def encU2fConfig (c : U2fConfig) : Json := .obj [("appid", .str c.appid)]

/-- Decode the global U2F site configuration. -/
def decU2fConfig (j : Json) : Option U2fConfig :=
  (jGet j "appid").bind fun v => (decStr v).map fun appid => ⟨appid⟩

/-- The global WebAuthn site configuration. -/
def encWebauthnConfig (c : WebauthnConfig) : Json :=
  .obj ([("rp", .str c.rp)] ++ optField "origin" Json.str c.origin ++ [("id", .str c.id)])

/-- Decode the global WebAuthn site configuration. -/
def decWebauthnConfig (j : Json) : Option WebauthnConfig :=
  (jGet j "rp").bind fun v1 => (decStr v1).bind fun rp =>
  (jGetOpt j "origin" decStr).bind fun origin =>
  (jGet j "id").bind fun v2 => (decStr v2).map fun id =>
  ⟨rp, origin, id⟩

/-- The whole configuration file: the `users` object plus the optional
site configurations, present exactly when set. -/
def encConfig (c : TfaConfig) : Json :=
  .obj ([("users", .obj (c.users.map (fun p => (p.1, encUserData p.2))))]
    ++ optField "u2f" encU2fConfig c.u2f
    ++ optField "webauthn" encWebauthnConfig c.webauthn)

/-- Decode the `users` object: every value must be a user record. -/
def decUsers : Json → Option (List (String × TfaUserData))
  | .obj fs =>
    optMapM (fun p : String × Json => (decUserData p.2).map (fun d => (p.1, d))) fs
  | _ => none

/-- Decode the whole configuration file. -/
def decConfig (j : Json) : Option TfaConfig :=
  (jGet j "users").bind fun ju => (decUsers ju).bind fun users =>
  (jGetOpt j "u2f" decU2fConfig).bind fun u2f =>
  (jGetOpt j "webauthn" decWebauthnConfig).map fun webauthn =>
  ⟨users, u2f, webauthn⟩

/-- Clearing of the site configurations done by PVE's `new` (the U2F and
WebAuthn configurations of PVE come from `datacenter.cfg`). -/
def clearSiteConfig (c : TfaConfig) : TfaConfig :=
  { c with u2f := none, webauthn := none }

/-- PVE `write` at the JSON level: the `u2f`/`webauthn` fields are taken
out before serializing, so the serialized object is that of the cleared
configuration. -/
def pve_write_json (c : TfaConfig) : Json := encConfig (clearSiteConfig c)

/-- PVE `new` at the JSON level: parse, then clear the site configurations. -/
def pve_new_json (j : Json) : Option TfaConfig := (decConfig j).map clearSiteConfig

/-- PMG `write` at the JSON level: serializes the configuration as-is. -/
def pmg_write_json (c : TfaConfig) : Json := encConfig c

/-- PMG `new` at the JSON level: parse, then clear only the U2F site
configuration (PMG does not support U2F). -/
def pmg_new_json (j : Json) : Option TfaConfig :=
  (decConfig j).map (fun c => { c with u2f := none })

/-- PVE `write` with the serializer abstract, to state what happens to the
in-memory state: `u2f`/`webauthn` are taken out, the serializer runs on
the cleared configuration without `?`, and both fields are put back before
the serializer's result is propagated. -/
def pve_write_state (ser : TfaConfig → Except String (List Nat)) (c : TfaConfig) :
    Except String (List Nat) × TfaConfig :=
  let u := c.u2f
  let w := c.webauthn
  let c' := { c with u2f := none, webauthn := none }
  let output := ser c'
  (output, { c' with u2f := u, webauthn := w })

/-! ## The persistent challenge store

`OpenUserChallengeData::{open, open_no_create}` (pve-rs tfa.rs lines
1035-1112, pmg-rs tfa.rs lines 565-642).  The per-user files are modelled
as an association list from user id to file content bytes; the JSON
parsing of the stored `TfaUserChallenges` is an abstract parameter, and
the advisory lock is invisible to a single caller. -/

/-- `open(user)`: create the file empty when absent, then read it; empty
content is the default state, unparsable content is the default state with
a logged warning (the returned flag), never an error. -/
def challenge_open {S : Type} (parse : List Nat → Option S) (deflt : S)
    (fs : List (String × List Nat)) (user : String) :
    Except String ((S × Bool) × List (String × List Nat)) :=
  let fs' :=
    match lookupA fs user with
    | none => fs ++ [(user, [])]
    | some _ => fs
  let data := (lookupA fs' user).getD []
  if data.isEmpty then .ok ((deflt, false), fs')
  else
    match parse data with
    | some s => .ok ((s, false), fs')
    | none => .ok ((deflt, true), fs')

/-- `open_no_create(user)`: a missing file is `None` and nothing is
created; an existing file is parsed, and a parse failure here is an
error (`serde_json::from_reader` behind `map_err(..)?`). -/
def challenge_open_no_create {S : Type} (parse : List Nat → Option S)
    (fs : List (String × List Nat)) (user : String) :
    Except String (Option S × List (String × List Nat)) :=
  match lookupA fs user with
  | none => .ok (none, fs)
  | some data =>
    match parse data with
    | some s => .ok (some s, fs)
    | none => .error ("failed to read challenge data for user " ++ user)

/-! ## Theorems -/

/-- The `needs_saving` flag carried by a verification outcome. -/
def needsSavingOf : TfaResult → Bool
  | .success ns => ns
  | .locked => false
  | .failure ns _ _ => ns

/-- C1 counterexample: two `Failure` outcomes that differ in
`needs_saving` produce the identical `authentication_verify` result, so on
a failure the caller is not told whether the configuration needs saving —
refuting the claim that `needs_saving` is reported in every case. -/
theorem authentication_verify_needs_saving_lost :
    authentication_verify_result (.failure true false false)
      = authentication_verify_result (.failure false false false)
    ∧ needsSavingOf (.failure true false false)
      ≠ needsSavingOf (.failure false false false) :=
  ⟨rfl, by decide⟩

/-- C1 (amended): `authentication_verify` maps `Failure` and `Locked` to
the same hard failure signal (the fixed error), and reports `needs_saving`
exactly in the `Success` case. -/
theorem authentication_verify_collapses_failure_and_locked :
    (∀ ns t f, authentication_verify_result (.failure ns t f)
        = authentication_verify_result .locked)
    ∧ (∀ ns t f, authentication_verify_result (.failure ns t f)
        = .error "TFA authentication failed")
    ∧ (∀ ns, authentication_verify_result (.success ns) = .ok ns) :=
  ⟨fun _ _ _ => rfl, fun _ _ _ => rfl, fun _ => rfl⟩

/-- A user whose only TFA entry is a disabled TOTP entry. -/
def disabledTotpUser : TfaUserData :=
  { emptyUserData with
    totp := [⟨⟨"x", "", 0, false⟩, ⟨[1, 2, 3], 30, 6, "alice"⟩⟩] }

/-- C2 counterexample: `has_type` answers `true` for a user whose only
TOTP entry is disabled — it does not exclude disabled entries. -/
theorem has_type_counts_disabled_entries :
    has_type [("alice", disabledTotpUser)] "alice" "totp" = .ok true
    ∧ disabledTotpUser.totp.countP (fun e => e.info.enable) = 0 :=
  ⟨rfl, rfl⟩

/-- C2 (amended): `has_type(user, kind)` is true exactly when the user has
at least one entry of that kind, enabled or not; only `recovery` is
special, true exactly when the count of unused recovery codes is positive. -/
theorem has_type_characterisation (users : List (String × TfaUserData))
    (uid : String) (d : TfaUserData) (h : lookupA users uid = some d) :
    has_type users uid "totp" = .ok (!d.totp.isEmpty)
    ∧ has_type users uid "oath" = .ok (!d.totp.isEmpty)
    ∧ has_type users uid "u2f" = .ok (!d.u2f.isEmpty)
    ∧ has_type users uid "webauthn" = .ok (!d.webauthn.isEmpty)
    ∧ has_type users uid "yubico" = .ok (!d.yubico.isEmpty)
    ∧ has_type users uid "recovery"
        = .ok (match d.recovery with
               | some r => decide (r.count_available > 0)
               | none => false) := by
  refine ⟨?_, ?_, ?_, ?_, ?_, ?_⟩ <;> simp [has_type, h]

/-- C2 witness: the characterisation applied to a concrete configuration. -/
theorem has_type_characterisation_witness :
    has_type [("alice", disabledTotpUser)] "alice" "recovery" = .ok false := by
  have h := has_type_characterisation [("alice", disabledTotpUser)] "alice"
    disabledTotpUser rfl
  simpa [disabledTotpUser, emptyUserData] using h.2.2.2.2.2

/-- A user whose full-TFA lockout timestamp is set (to 5). -/
def lockedOutUser : TfaUserData := { emptyUserData with tfa_locked_until := some 5 }

/-- C3 counterexample: querying the lock status at a time (10) past the
stored `tfa-locked-until` timestamp (5) still reports the field — it is
not omitted for past timestamps, only for unset ones. -/
theorem tfa_lock_status_keeps_past_timestamp :
    tfa_lock_status [("alice", lockedOutUser)] "alice"
      = some (.obj [("tfa-locked-until", Json.num 5)])
    ∧ (5 : Int) < 10 :=
  ⟨rfl, by norm_num⟩

/-- C3 (amended): for every user present in the configuration the lock
status query returns the serialized record, and the `tfa-locked-until`
field is present exactly when the stored timestamp is set, carrying it
verbatim whether or not it lies in the past. -/
theorem tfa_lock_status_reports (users : List (String × TfaUserData))
    (uid : String) (d : TfaUserData) (h : lookupA users uid = some d) :
    tfa_lock_status users uid
      = some (serializeLockStatus ⟨d.totp_locked, d.tfa_locked_until⟩)
    ∧ jGet (serializeLockStatus ⟨d.totp_locked, d.tfa_locked_until⟩) "tfa-locked-until"
      = d.tfa_locked_until.map Json.num := by
  constructor
  · simp [tfa_lock_status, h, TfaLockStatus.ofUser]
  · cases hu : d.tfa_locked_until <;> cases hl : d.totp_locked <;>
      simp [serializeLockStatus, jGet, lookupA, hu, hl]

/-- C3 witness: the report for a concrete locked-out user. -/
theorem tfa_lock_status_reports_witness :
    tfa_lock_status [("alice", lockedOutUser)] "alice"
      = some (serializeLockStatus ⟨false, some 5⟩) :=
  (tfa_lock_status_reports [("alice", lockedOutUser)] "alice" lockedOutUser rfl).1

/-- C4 counterexample: on a challenge file holding the unparsable bytes
`no`, the creating `open` succeeds with the default state and the warning
flag, but `open_no_create` returns a fatal error rather than an empty
default — refuting the claim that both opens succeed. -/
theorem open_no_create_corrupt_is_fatal :
    challenge_open_no_create (fun _ => (none : Option Unit)) [("alice", [110, 111])] "alice"
      = .error "failed to read challenge data for user alice"
    ∧ challenge_open (fun _ => (none : Option Unit)) () [("alice", [110, 111])] "alice"
      = .ok (((), true), [("alice", [110, 111])]) :=
  ⟨rfl, rfl⟩

/-- C4 (amended): on an existing challenge file with non-empty unparsable
content, the creating `open` succeeds with the empty default state and the
logged-warning flag set, while `open_no_create` fails with the fatal read
error for that user. -/
theorem challenge_open_corrupt_behaviour {S : Type} (parse : List Nat → Option S)
    (deflt : S) (fs : List (String × List Nat)) (user : String) (data : List Nat)
    (h1 : lookupA fs user = some data) (h2 : data ≠ []) (h3 : parse data = none) :
    challenge_open parse deflt fs user = .ok ((deflt, true), fs)
    ∧ challenge_open_no_create parse fs user
      = .error ("failed to read challenge data for user " ++ user) := by
  constructor
  · cases data with
    | nil => exact absurd rfl h2
    | cons b bs => simp [challenge_open, h1, h3]
  · simp [challenge_open_no_create, h1, h3]

/-- C4 witness: the amended behaviour at the concrete corrupt file. -/
theorem challenge_open_corrupt_behaviour_witness :
    challenge_open (fun _ => (none : Option Unit)) () [("bob", [123])] "bob"
      = .ok (((), true), [("bob", [123])]) :=
  (challenge_open_corrupt_behaviour (fun _ => none) () [("bob", [123])] "bob"
    [123] rfl (by decide) rfl).1

/-- C9: when no challenge file exists for the user, `open_no_create`
returns `None` and leaves the file system exactly as it was — no file is
created. -/
theorem open_no_create_missing_returns_none {S : Type}
    (parse : List Nat → Option S) (fs : List (String × List Nat)) (user : String)
    (h : lookupA fs user = none) :
    challenge_open_no_create parse fs user = .ok (none, fs) := by
  simp [challenge_open_no_create, h]

/-- C9 witness: the user `bob` with no challenge file. -/
theorem open_no_create_missing_returns_none_witness :
    challenge_open_no_create (fun _ => (none : Option Unit)) [] "bob" = .ok (none, []) :=
  open_no_create_missing_returns_none (fun _ => none) [] "bob" rfl

/-- C10: PVE `write` serializes the configuration with the `u2f` and
`webauthn` site sections absent from the output, and the in-memory
configuration afterwards equals the original — the two fields are restored
before the serializer's result (success or error) is propagated. -/
theorem pve_write_clears_site_config_and_restores :
    (∀ ser c, (pve_write_state ser c).2 = c
      ∧ (pve_write_state ser c).1 = ser (clearSiteConfig c))
    ∧ (∀ c, jGet (pve_write_json c) "u2f" = none
      ∧ jGet (pve_write_json c) "webauthn" = none) := by
  constructor
  · intro ser c
    exact ⟨by cases c; rfl, rfl⟩
  · intro c
    exact ⟨rfl, rfl⟩

/-- Hex decoding with the error message of the calling branch. -/
def hexDecodeE (msg : String) (cs : List Char) : Except String (List Nat) :=
  match hexDecode cs with
  | some bs => .ok bs
  | none => .error msg

/-- Base32 decoding with the error message of the calling branch. -/
def base32DecodeE (msg : String) (cs : List Char) : Except String (List Nat) :=
  match base32Decode cs with
  | some bs => .ok bs
  | none => .error msg

/-- Stripping a concatenated pattern strips the two parts in order. -/
theorem stripPref_append (p q l : List Char) :
    stripPref (p ++ q) l = (stripPref p l).bind (stripPref q) := by
  induction p generalizing l with
  | nil => simp [stripPref]
  | cons c cs ih =>
    cases l with
    | nil => simp [stripPref]
    | cons a as => by_cases hac : a = c <;> simp [stripPref, hac, ih]

/-- A key without the `v2-` pattern does not carry the longer `v2-0x`
pattern either. -/
theorem stripPref_v20x_of_v2 (key : List Char) (h : stripPref "v2-".data key = none) :
    stripPref "v2-0x".data key = none := by
  have : ("v2-0x".data : List Char) = "v2-".data ++ "0x".data := by decide
  rw [this, stripPref_append, h]
  rfl

/-- C7: the decoding of one legacy oath key, characterised branch by
branch: a `v2-0x`-prefixed key hex-decodes its remainder, an otherwise
`v2-`-prefixed key base32-decodes its remainder, an unprefixed
16-character key is base32-decoded, an unprefixed 40-character key is
hex-decoded, and every other unprefixed length is a parse error. -/
theorem decodeOldOathKey_characterisation (key : List Char) :
    (∀ rest, stripPref "v2-0x".data key = some rest →
      decodeOldOathKey key = hexDecodeE "bad v2 hex key in oath entry" rest)
    ∧ (stripPref "v2-0x".data key = none →
       ∀ rest, stripPref "v2-".data key = some rest →
      decodeOldOathKey key = base32DecodeE "bad v2 base32 key in oath entry" rest)
    ∧ (stripPref "v2-".data key = none → key.length = 16 →
      decodeOldOathKey key = base32DecodeE "bad v1 base32 key in oath entry" key)
    ∧ (stripPref "v2-".data key = none → key.length = 40 →
      decodeOldOathKey key = hexDecodeE "bad v1 hex key in oath entry" key)
    ∧ (stripPref "v2-".data key = none → key.length ≠ 16 → key.length ≠ 40 →
      decodeOldOathKey key
        = .error "unrecognized key format, must be hex or base32 encoded") := by
  refine ⟨?_, ?_, ?_, ?_, ?_⟩
  · intro rest h
    simp [decodeOldOathKey, h, hexDecodeE]
  · intro h0 rest h
    simp [decodeOldOathKey, h0, h, base32DecodeE]
  · intro h hlen
    simp [decodeOldOathKey, stripPref_v20x_of_v2 key h, h, hlen, base32DecodeE]
  · intro h hlen
    simp [decodeOldOathKey, stripPref_v20x_of_v2 key h, h, hlen, hexDecodeE]
  · intro h h16 h40
    simp [decodeOldOathKey, stripPref_v20x_of_v2 key h, h, h16, h40]

/-- C7 witness: the characterisation evaluated on the concrete key
`v2-0x0a`, which hex-decodes to the byte 10. -/
theorem decodeOldOathKey_characterisation_witness :
    decodeOldOathKey "v2-0x0a".data = .ok [10] := by
  have h := (decodeOldOathKey_characterisation "v2-0x0a".data).1 "0a".data (by decide)
  rw [h]
  rfl

/-- A hex digit of a nibble decodes back to that nibble. -/
theorem hexVal_hexDigit : ∀ n, n < 16 → hexVal (hexDigit n) = some n := by decide

/-- Hex decoding undoes hex encoding on byte values. -/
theorem hexDecode_hexEncode (bs : List Nat) (h : ∀ b ∈ bs, b < 256) :
    hexDecode (hexEncode bs) = some bs := by
  induction bs with
  | nil => rfl
  | cons b rest ih =>
    have hb : b < 256 := h b (by simp)
    have h1 : b / 16 < 16 := Nat.div_lt_of_lt_mul (by omega)
    have h2 : b % 16 < 16 := Nat.mod_lt _ (by omega)
    have ihr := ih (fun x hx => h x (by simp [hx]))
    simp [hexEncode, hexDecode, hexVal_hexDigit _ h1, hexVal_hexDigit _ h2, ihr]
    omega

/-- Hex digits are neither key separators nor ASCII whitespace. -/
theorem hexDigit_not_sep :
    ∀ n, n < 16 → isKeySep (hexDigit n) = false ∧ isAsciiWs (hexDigit n) = false := by
  decide

/-- All characters of a hex encoding are plain (no separator, no
whitespace). -/
theorem hexEncode_chars (bs : List Nat) (h : ∀ b ∈ bs, b < 256) :
    ∀ c ∈ hexEncode bs, isKeySep c = false ∧ isAsciiWs c = false := by
  induction bs with
  | nil => simp [hexEncode]
  | cons b rest ih =>
    intro c hc
    have hb : b < 256 := h b (by simp)
    simp only [hexEncode, List.mem_cons] at hc
    rcases hc with h1 | h1 | h1
    · subst h1; exact hexDigit_not_sep _ (Nat.div_lt_of_lt_mul (by omega))
    · subst h1; exact hexDigit_not_sep _ (Nat.mod_lt _ (by omega))
    · exact ih (fun x hx => h x (by simp [hx])) c h1

/-- A separator-free string splits into itself alone. -/
theorem splitSeps_no_sep (l : List Char) (h : ∀ c ∈ l, isKeySep c = false) :
    splitSeps l = [l] := by
  induction l with
  | nil => rfl
  | cons c rest ih =>
    have hc := h c (by simp)
    have ihr := ih (fun x hx => h x (by simp [hx]))
    simp [splitSeps, hc, ihr]

/-- Dropping while a predicate that never holds drops nothing. -/
theorem dropWhile_all_neg {p : Char → Bool} (l : List Char)
    (h : ∀ c ∈ l, p c = false) : l.dropWhile p = l := by
  cases l with
  | nil => rfl
  | cons c rest => simp [List.dropWhile_cons, h c (by simp)]

/-- Trimming a whitespace-free string is the identity. -/
theorem trimWs_all_neg (l : List Char) (h : ∀ c ∈ l, isAsciiWs c = false) :
    trimWs l = l := by
  unfold trimWs
  rw [dropWhile_all_neg l h,
    dropWhile_all_neg l.reverse (fun c hc => h c (List.mem_reverse.mp hc)),
    List.reverse_reverse]

/-- Stripping a pattern from itself plus a remainder yields the remainder. -/
theorem stripPref_self_append (p rest : List Char) :
    stripPref p (p ++ rest) = some rest := by
  induction p with
  | nil => rfl
  | cons c cs ih => simp [stripPref, ih]

/-- The characters of the `v2-0x` marker are plain. -/
theorem v20x_chars :
    ∀ c ∈ ("v2-0x".data : List Char), isKeySep c = false ∧ isAsciiWs c = false := by
  decide

/-- C6: a user record with no U2F entry and exactly one TOTP entry
projects to a legacy `oath` entry, and parsing that projected oath data
back yields exactly one TOTP secret equal to the original, with the same
step (period) and digits configuration. -/
theorem legacy_totp_roundtrip (b64e b64ue : List Nat → List Char)
    (d : TfaUserData) (t : TfaEntry Totp) (user : String)
    (hu : d.u2f = []) (ht : d.totp = [t])
    (hsec : ∀ b ∈ t.entry.secret, b < 256) (hdig : t.entry.digits < 256) :
    projectThenParseOath b64e b64ue d user
      = some (.ok [⟨t.entry.secret, t.entry.period, t.entry.digits, user⟩]) := by
  have hg : generate_legacy_user b64e b64ue d
      = some (.oath (Int.ofNat t.entry.digits) (Int.ofNat t.entry.period)
          ('v' :: '2' :: '-' :: '0' :: 'x' :: hexEncode t.entry.secret)) := by
    simp [generate_legacy_user, hu, ht, oathKeysOf]
  have hns : ∀ c ∈ ('v' :: '2' :: '-' :: '0' :: 'x' :: hexEncode t.entry.secret : List Char),
      isKeySep c = false := by
    intro c hc
    simp only [List.mem_cons] at hc
    rcases hc with h | h | h | h | h | h
    · subst h; decide
    · subst h; decide
    · subst h; decide
    · subst h; decide
    · subst h; decide
    · exact (hexEncode_chars _ hsec c h).1
  have hnw : ∀ c ∈ ('v' :: '2' :: '-' :: '0' :: 'x' :: hexEncode t.entry.secret : List Char),
      isAsciiWs c = false := by
    intro c hc
    simp only [List.mem_cons] at hc
    rcases hc with h | h | h | h | h | h
    · subst h; decide
    · subst h; decide
    · subst h; decide
    · subst h; decide
    · subst h; decide
    · exact (hexEncode_chars _ hsec c h).2
  have hsplit := splitSeps_no_sep _ hns
  have htrim := trimWs_all_neg _ hnw
  have hone : decode_old_oath_keys user t.entry.period t.entry.digits
      [('v' :: '2' :: '-' :: '0' :: 'x' :: hexEncode t.entry.secret : List Char)]
      = .ok [⟨t.entry.secret, t.entry.period, t.entry.digits, user⟩] := by
    rw [decode_old_oath_keys, htrim]
    simp [decodeOldOathKey, stripPref, hexDecode_hexEncode _ hsec, decode_old_oath_keys]
  simp [projectThenParseOath, hg, decode_old_oath_entry, legacyOathJson, removeKey,
    usize_from_perl, take_json_string, hdig, hsplit, hone]

/-- A concrete user with exactly one TOTP entry (secret `de ad`). -/
def oneTotpUser : TfaUserData :=
  { emptyUserData with totp := [⟨⟨"t1", "", 0, true⟩, ⟨[222, 173], 30, 6, "alice"⟩⟩] }

/-- C6 witness: the round trip on the concrete one-TOTP user. -/
theorem legacy_totp_roundtrip_witness :
    projectThenParseOath (fun _ => []) (fun _ => []) oneTotpUser "alice"
      = some (.ok [⟨[222, 173], 30, 6, "alice"⟩]) :=
  legacy_totp_roundtrip (fun _ => []) (fun _ => []) oneTotpUser
    ⟨⟨"t1", "", 0, true⟩, ⟨[222, 173], 30, 6, "alice"⟩⟩ "alice" rfl rfl
    (by decide) (by decide)

/-- A pointwise decode-encode inverse lifts to mapped lists. -/
theorem mapM_map_eq_some {α β : Type} (f : α → β) (g : β → Option α)
    (h : ∀ a, g (f a) = some a) :
    ∀ xs : List α, optMapM g (xs.map f) = some xs := by
  intro xs
  induction xs with
  | nil => rfl
  | cons a as ih => simp [optMapM, h, ih]

/-- Bytes decode back. -/
theorem decBytes_encBytes (bs : List Nat) : decBytes (encBytes bs) = some bs := by
  show optMapM decNatJ (bs.map (fun b => Json.num (Int.ofNat b))) = some bs
  exact mapM_map_eq_some (fun b => Json.num (Int.ofNat b)) decNatJ (fun _ => rfl) bs

/-- TOTP data decodes back. -/
theorem decTotp_encTotp (t : Totp) : decTotp (encTotp t) = some t := by
  simp [decTotp, encTotp, jGet, lookupA, decBytes_encBytes, decStr, decNatJ]

/-- U2F registration data decodes back. -/
theorem decU2fReg_encU2fReg (r : U2fRegistration) : decU2fReg (encU2fReg r) = some r := by
  simp [decU2fReg, encU2fReg, jGet, lookupA, decBytes_encBytes, decStr]

/-- The entry envelope decodes back whenever its data does. -/
theorem decEntry_encEntry {T : Type} (encT : T → Json) (decT : Json → Option T)
    (h : ∀ x, decT (encT x) = some x) (e : TfaEntry T) :
    decEntry decT (encEntry encT e) = some e := by
  simp [decEntry, encEntry, jGet, lookupA, decStr, decInt, decBool, h]

/-- A recovery code decodes back. -/
theorem decRecoveryCode_enc (c : RecoveryCode) :
    decRecoveryCode (encRecoveryCode c) = some c := by
  simp [decRecoveryCode, encRecoveryCode, jGet, lookupA, decStr, decBool]

/-- The recovery entry decodes back. -/
theorem decRecovery_enc (r : RecoveryEntry) : decRecovery (encRecovery r) = some r := by
  simp [decRecovery, encRecovery, jGet, lookupA, decInt, decList,
    mapM_map_eq_some _ _ decRecoveryCode_enc]

/-- A user record decodes back. -/
theorem decUserData_enc (d : TfaUserData) : decUserData (encUserData d) = some d := by
  have hT : ∀ e : TfaEntry Totp, decEntry decTotp (encEntry encTotp e) = some e :=
    decEntry_encEntry _ _ decTotp_encTotp
  have hU : ∀ e : TfaEntry U2fRegistration,
      decEntry decU2fReg (encEntry encU2fReg e) = some e :=
    decEntry_encEntry _ _ decU2fReg_encU2fReg
  have hS : ∀ e : TfaEntry String, decEntry decStr (encEntry Json.str e) = some e :=
    decEntry_encEntry _ _ (fun _ => rfl)
  rcases d with ⟨totp, u2f, webauthn, yubico, recovery, totp_locked, tfa_locked_until⟩
  cases recovery <;> cases tfa_locked_until <;>
    simp [decUserData, encUserData, optField, jGet, jGetOpt, lookupA, decBool, decInt,
      decList, decRecovery_enc, mapM_map_eq_some _ _ hT, mapM_map_eq_some _ _ hU,
      mapM_map_eq_some _ _ hS]

/-- The users object decodes back, binding by binding. -/
theorem mapM_users (users : List (String × TfaUserData)) :
    optMapM (fun p : String × Json => (decUserData p.2).map (fun d => (p.1, d)))
      (users.map (fun p => (p.1, encUserData p.2)))
      = some users := by
  induction users with
  | nil => rfl
  | cons p rest ih => simp [optMapM, decUserData_enc, ih]

/-- The users object decodes back. -/
theorem decUsers_enc (users : List (String × TfaUserData)) :
    decUsers (.obj (users.map (fun p => (p.1, encUserData p.2)))) = some users := by
  simp [decUsers, mapM_users]

/-- The U2F site configuration decodes back. -/
theorem decU2fConfig_enc (u : U2fConfig) : decU2fConfig (encU2fConfig u) = some u := by
  simp [decU2fConfig, encU2fConfig, jGet, lookupA, decStr]

/-- The WebAuthn site configuration decodes back. -/
theorem decWebauthnConfig_enc (w : WebauthnConfig) :
    decWebauthnConfig (encWebauthnConfig w) = some w := by
  rcases w with ⟨rp, origin, id⟩
  cases origin <;>
    simp [decWebauthnConfig, encWebauthnConfig, optField, jGet, jGetOpt, lookupA, decStr]

/-- The whole configuration decodes back. -/
theorem decConfig_encConfig (c : TfaConfig) : decConfig (encConfig c) = some c := by
  rcases c with ⟨users, u2f, webauthn⟩
  cases u2f <;> cases webauthn <;>
    simp [decConfig, encConfig, optField, jGet, jGetOpt, lookupA, decUsers_enc,
      decU2fConfig_enc, decWebauthnConfig_enc]

/-- Clearing the site configurations twice is clearing once. -/
theorem clearSiteConfig_idem (c : TfaConfig) :
    clearSiteConfig (clearSiteConfig c) = clearSiteConfig c := rfl

/-- C5: parsing the serialized configuration yields the original back — in
the pure codec `parse (serialize c) = some c`, and through the PVE and PMG
`write`/`new` pairs the users map (each user's entries, recovery state and
lockout fields) survives unchanged; only the site configurations are
cleared by `new` as the source does. -/
theorem config_parse_serialize_roundtrip (c : TfaConfig) :
    decConfig (encConfig c) = some c
    ∧ pve_new_json (pve_write_json c) = some (clearSiteConfig c)
    ∧ (pve_new_json (pve_write_json c)).map TfaConfig.users = some c.users
    ∧ pmg_new_json (pmg_write_json c) = some { c with u2f := none }
    ∧ (pmg_new_json (pmg_write_json c)).map TfaConfig.users = some c.users := by
  refine ⟨decConfig_encConfig c, ?_, ?_, ?_, ?_⟩
  · simp [pve_new_json, pve_write_json, decConfig_encConfig, clearSiteConfig_idem]
  · simp [pve_new_json, pve_write_json, decConfig_encConfig, clearSiteConfig_idem,
      clearSiteConfig]
  · simp [pmg_new_json, pmg_write_json, decConfig_encConfig]
  · simp [pmg_new_json, pmg_write_json, decConfig_encConfig]

/-- Whether an `Except` is the error case. -/
def isErrE {ε α : Type} : Except ε α → Bool
  | .error _ => true
  | .ok _ => false

/-- PVE `new` over input bytes: try the JSON configuration parse
(`serde_json::from_slice`, the abstract `jsonCfgParse`), fall back to the
legacy line format, replace either failure pair with the single fatal
message, and clear the site configurations on success. -/
def pve_new_bytes (ext : ExternLib) (jsonCfgParse : List Nat → Option TfaConfig)
    (data : List Nat) : Except String TfaConfig :=
  match jsonCfgParse data with
  | some c => .ok (clearSiteConfig c)
  | none =>
    match parse_old_config ext data with
    | .ok c => .ok (clearSiteConfig c)
    | .error _ => .error "failed to parse TFA file, neither old style nor valid json"

/-- C8: the PVE constructor attempts JSON first (a JSON success is used
as-is, site configurations cleared), falls back to the legacy line parser
otherwise, and is a fatal parse error exactly when both attempts fail;
within the legacy parser an unknown entry type is a hard parse error. -/
theorem pve_new_fallback (ext : ExternLib)
    (jsonCfgParse : List Nat → Option TfaConfig) (data : List Nat) :
    (isErrE (pve_new_bytes ext jsonCfgParse data) = true
      ↔ jsonCfgParse data = none ∧ isErrE (parse_old_config ext data) = true)
    ∧ (∀ c, jsonCfgParse data = some c →
        pve_new_bytes ext jsonCfgParse data = .ok (clearSiteConfig c))
    ∧ (jsonCfgParse data = none → ∀ c, parse_old_config ext data = .ok c →
        pve_new_bytes ext jsonCfgParse data = .ok (clearSiteConfig c))
    ∧ (∀ ty payload user, ty ≠ strBytes "u2f" → ty ≠ strBytes "oath" →
        ty ≠ strBytes "yubico" →
        isErrE (decode_old_entry ext ty payload user) = true) := by
  refine ⟨?_, ?_, ?_, ?_⟩
  · cases hj : jsonCfgParse data with
    | some c => simp [pve_new_bytes, hj, isErrE]
    | none =>
      cases hp : parse_old_config ext data with
      | ok c => simp [pve_new_bytes, hj, hp, isErrE]
      | error e => simp [pve_new_bytes, hj, hp, isErrE]
  · intro c hj
    simp [pve_new_bytes, hj]
  · intro hj c hp
    simp [pve_new_bytes, hj, hp]
  · intro ty payload user h1 h2 h3
    cases hjson : ext.jsonOfBytes payload with
    | none => simp [decode_old_entry, hjson, isErrE]
    | some v => simp [decode_old_entry, hjson, h1, h2, h3, isErrE]

/-- An external-library instance for witnesses: every call fails. -/
def failingExt : ExternLib :=
  ⟨fun _ => none, fun _ => none, fun _ => none, fun _ => none, fun _ => none⟩

/-- C8 witness: the fallback applied to a concrete successful JSON parse. -/
theorem pve_new_fallback_witness :
    pve_new_bytes failingExt (fun _ => some ⟨[], none, none⟩) []
      = .ok ⟨[], none, none⟩ :=
  (pve_new_fallback failingExt (fun _ => some ⟨[], none, none⟩) []).2.1
    ⟨[], none, none⟩ rfl
